import Mathlib

/-!
Verification of the filtering and aggregation core of a Boston Airbnb
dashboard (finalproject.py). The filter engine `apply_filters` narrows a
tabular dataset of listings by price, availability, review count,
neighborhood membership, room type and a case-insensitive name search,
returning the filtered rows together with their mean price and count.
A second component computes per-neighborhood mean prices and reports the
most expensive and the most affordable neighborhood.

Rows are modelled as a structure `Listing`; the dataframe is a
`List Listing`; prices and coordinates are rationals; the optional
arguments of the Python function become `Option` values, with Python
truthiness (None and the empty string or list are falsy) made explicit.

The pandas text search `str.contains(search_text, case=False, na=False)`
interprets the search text as a regular expression (regex=True is the
default) matched with IGNORECASE, and pandas compiles the pattern before
touching the data, so an invalid pattern raises re.error even on an
already-empty frame; a null name never matches (na=False).  Two models of
the engine are developed.  `apply_filters` reads the search text as a
literal pattern and performs case-insensitive substring containment, the
behaviour of the code on search strings free of regex metacharacters.
`apply_filters_regex` models the search branch faithfully: it compiles the
pattern with `reCompile`, which implements the Python regex dialect on the
fragment consisting of literal characters, the dot wildcard, the
backslash-d and backslash-D character classes and grouping parentheses,
reports re.error exactly where re.compile raises on that fragment
(unbalanced parentheses, trailing backslash), and maps syntax outside the
fragment to a distinguished unmodelled outcome rather than guessing.  On
literal patterns the two engines agree (`apply_filters_regex_eq_literal`).
-/

/-- One row of the listings dataframe.  The name can be missing (null). -/
structure Listing where
  name : Option String
  neighbourhood : String
  room_type : String
  price : ℚ
  availability_365 : Int
  number_of_reviews : Int
  latitude : ℚ
  longitude : ℚ
deriving DecidableEq, Repr

/-- Python truthiness of an optional list: None and the empty list are falsy. -/
def listTruthy : Option (List String) → Bool
  | none => false
  | some l => !l.isEmpty

/-- Python truthiness of an optional string: None and the empty string are falsy. -/
def strTruthy : Option String → Bool
  | none => false
  | some s => !(s == "")

/-- Lower-cased character sequence of a string, modelling case=False comparison. -/
def lowerStr (s : String) : List Char :=
  s.data.map Char.toLower

/-- Whether the first character list starts with the second one. -/
def charsStartWith : List Char → List Char → Bool
  | _, [] => true
  | [], _ :: _ => false
  | a :: as, b :: bs => a == b && charsStartWith as bs

/-- Whether the second character list occurs contiguously inside the first one. -/
def charsContain : List Char → List Char → Bool
  | [], needle => needle.isEmpty
  | h :: t, needle => charsStartWith (h :: t) needle || charsContain t needle

/-- Case-insensitive match of the search text against an optional name field,
modelling pandas str.contains with case=False and na=False: a null name never
matches, otherwise the lower-cased search text must occur in the lower-cased
name. -/
def nameMatches (search : String) (name : Option String) : Bool :=
  match name with
  | none => false
  | some n => charsContain (lowerStr n) (lowerStr search)

/-- Mean of the price column of a list of rows (division by zero yields 0). -/
def meanPrice (l : List Listing) : ℚ :=
  (l.map Listing.price).sum / (l.length : ℚ)

/-- The filter engine, translated line by line from apply_filters in
finalproject.py: a conjunctive range filter on price, availability and
review count, then three conditional filters for neighborhood membership,
room-type equality and the name search, then the mean price of the result
(0 when it is empty) and its row count. -/
def apply_filters (df : List Listing) (min_price max_price : ℚ)
    (neighborhoods : Option (List String)) ( room_type : Option String)
    (min_avail max_avail : Int) (min_reviews : Int)
    (search_text : Option String) : List Listing × ℚ × Nat :=
  let f0 := df.filter (fun r =>
    decide (min_price ≤ r.price) && decide (r.price ≤ max_price) &&
    decide (min_avail ≤ r.availability_365) && decide (r.availability_365 ≤ max_avail) &&
    decide (min_reviews ≤ r.number_of_reviews))
  let f1 := if listTruthy neighborhoods then
      f0.filter (fun r => (neighborhoods.getD []).contains r.neighbourhood)
    else f0
  let f2 := if strTruthy room_type then
      f1.filter (fun r => r.room_type == room_type.getD "")
    else f1
  let f3 := if strTruthy search_text then
      f2.filter (fun r => nameMatches (search_text.getD "") r.name)
    else f2
  let avg_price : ℚ := if f3.isEmpty then 0 else meanPrice f3
  (f3, avg_price, f3.length)

/-- The unconditional range constraints of the first filtering step. -/
def basePass (min_price max_price : ℚ) (min_avail max_avail : Int)
    (min_reviews : Int) (r : Listing) : Bool :=
  decide (min_price ≤ r.price) && decide (r.price ≤ max_price) &&
  decide (min_avail ≤ r.availability_365) && decide (r.availability_365 ≤ max_avail) &&
  decide (min_reviews ≤ r.number_of_reviews)

/-- The neighborhood membership constraint, trivially true when inactive. -/
def nbhdPass (neighborhoods : Option (List String)) (r : Listing) : Bool :=
  if listTruthy neighborhoods then (neighborhoods.getD []).contains r.neighbourhood
  else true

/-- The room-type equality constraint, trivially true when inactive. -/
def rtPass ( room_type : Option String) (r : Listing) : Bool :=
  if strTruthy room_type then r.room_type == room_type.getD "" else true

/-- The name search constraint, trivially true when inactive. -/
def searchPass (search_text : Option String) (r : Listing) : Bool :=
  if strTruthy search_text then nameMatches (search_text.getD "") r.name else true

/-- Conjunction of all constraints of one call to the filter engine. -/
def passes (min_price max_price : ℚ) (neighborhoods : Option (List String))
    ( room_type : Option String) (min_avail max_avail : Int)
    (min_reviews : Int) (search_text : Option String) (r : Listing) : Bool :=
  basePass min_price max_price min_avail max_avail min_reviews r &&
  nbhdPass neighborhoods r && rtPass room_type r && searchPass search_text r

theorem apply_filters_fst (df : List Listing) (mp Mp : ℚ)
    (ns : Option (List String)) (rt : Option String) (ma Ma mr : Int)
    (st : Option String) :
    (apply_filters df mp Mp ns rt ma Ma mr st).1 =
      df.filter (passes mp Mp ns rt ma Ma mr st) := by
  simp only [apply_filters]
  by_cases h1 : listTruthy ns <;> by_cases h2 : strTruthy rt <;>
    by_cases h3 : strTruthy st <;>
    simp [h1, h2, h3, List.filter_filter] <;>
    exact List.filter_congr (fun a _ => by
      simp [passes, basePass, nbhdPass, rtPass, searchPass, h1, h2, h3,
        Bool.and_assoc, Bool.and_comm, Bool.and_left_comm])

theorem apply_filters_eq (df : List Listing) (mp Mp : ℚ)
    (ns : Option (List String)) (rt : Option String) (ma Ma mr : Int)
    (st : Option String) :
    apply_filters df mp Mp ns rt ma Ma mr st =
      (df.filter (passes mp Mp ns rt ma Ma mr st),
       if (df.filter (passes mp Mp ns rt ma Ma mr st)).isEmpty then 0
       else meanPrice (df.filter (passes mp Mp ns rt ma Ma mr st)),
       (df.filter (passes mp Mp ns rt ma Ma mr st)).length) := by
  have h := apply_filters_fst df mp Mp ns rt ma Ma mr st
  simp only [apply_filters] at h ⊢
  rw [h]

/-- The two-row example dataset of the requirements document. -/
def exampleDS : List Listing :=
  [⟨some "Cozy Loft", "Back Bay", "Entire home/apt", 120, 200, 10,
    mkRat 4235 100, mkRat (-7108) 100⟩,
   ⟨some "Shared Room", "Allston", "Private room", 40, 300, 2,
    mkRat 4234 100, mkRat (-7113) 100⟩]

theorem passes_iff {mp Mp : ℚ} {ns : Option (List String)} {rt : Option String}
    {ma Ma mr : Int} {st : Option String} {r : Listing} :
    passes mp Mp ns rt ma Ma mr st r = true ↔
      (mp ≤ r.price ∧ r.price ≤ Mp ∧ ma ≤ r.availability_365 ∧
       r.availability_365 ≤ Ma ∧ mr ≤ r.number_of_reviews ∧
       (listTruthy ns = true → r.neighbourhood ∈ ns.getD []) ∧
       (strTruthy rt = true → r.room_type = rt.getD "") ∧
       (strTruthy st = true → nameMatches (st.getD "") r.name = true)) := by
  unfold passes basePass nbhdPass rtPass searchPass
  by_cases h1 : listTruthy ns <;> by_cases h2 : strTruthy rt <;>
    by_cases h3 : strTruthy st <;>
    simp [h1, h2, h3, and_assoc]

/-- Soundness of the literal-pattern engine: every row it returns is a row
of the input dataset and satisfies every active constraint simultaneously:
the inclusive price bounds, the inclusive availability bounds, the review
lower bound, membership of the neighborhood set when that set is active,
exact room-type equality when a room type is active, and the
case-insensitive substring name match when a search text is active. -/
theorem apply_filters_sub_sound (df : List Listing) (mp Mp : ℚ)
    (ns : Option (List String)) (rt : Option String) (ma Ma mr : Int)
    (st : Option String) (r : Listing)
    (hr : r ∈ (apply_filters df mp Mp ns rt ma Ma mr st).1) :
    r ∈ df ∧ mp ≤ r.price ∧ r.price ≤ Mp ∧ ma ≤ r.availability_365 ∧
      r.availability_365 ≤ Ma ∧ mr ≤ r.number_of_reviews ∧
      (listTruthy ns = true → r.neighbourhood ∈ ns.getD []) ∧
      (strTruthy rt = true → r.room_type = rt.getD "") ∧
      (strTruthy st = true → nameMatches (st.getD "") r.name = true) := by
  rw [apply_filters_fst] at hr
  obtain ⟨hmem, hp⟩ := List.mem_filter.mp hr
  exact ⟨hmem, passes_iff.mp hp⟩

/-- Empty-result behaviour of the literal-pattern engine: an empty filtered
subset comes with average price 0 and count 0. -/
theorem apply_filters_sub_empty_result (df : List Listing) (mp Mp : ℚ)
    (ns : Option (List String)) (rt : Option String) (ma Ma mr : Int)
    (st : Option String)
    (h : (apply_filters df mp Mp ns rt ma Ma mr st).1 = []) :
    (apply_filters df mp Mp ns rt ma Ma mr st).2.1 = 0 ∧
      (apply_filters df mp Mp ns rt ma Ma mr st).2.2 = 0 := by
  rw [apply_filters_fst] at h
  rw [apply_filters_eq]
  simp [h]

/-- Claim C5: on a non-empty filtered subset, the average price returned by
apply_filters is the arithmetic mean of the price field over exactly the
rows of that subset, and the returned count is the number of rows of that
subset. -/
theorem apply_filters_avg_count (df : List Listing) (mp Mp : ℚ)
    (ns : Option (List String)) (rt : Option String) (ma Ma mr : Int)
    (st : Option String)
    (h : (apply_filters df mp Mp ns rt ma Ma mr st).1 ≠ []) :
    (apply_filters df mp Mp ns rt ma Ma mr st).2.1 =
      meanPrice (apply_filters df mp Mp ns rt ma Ma mr st).1 ∧
    (apply_filters df mp Mp ns rt ma Ma mr st).2.2 =
      (apply_filters df mp Mp ns rt ma Ma mr st).1.length := by
  rw [apply_filters_fst] at h
  rw [apply_filters_eq]
  simp [List.isEmpty_iff, h]

theorem apply_filters_avg_count_witness :
    (apply_filters exampleDS 50 200 none none 0 365 0 none).2.1 =
      meanPrice (apply_filters exampleDS 50 200 none none 0 365 0 none).1 ∧
    (apply_filters exampleDS 50 200 none none 0 365 0 none).2.2 =
      (apply_filters exampleDS 50 200 none none 0 365 0 none).1.length :=
  apply_filters_avg_count exampleDS 50 200 none none 0 365 0 none (by decide)

/-- Inverted bounds on the literal-pattern engine: min_price strictly above
max_price, or min_avail strictly above max_avail, empties the base range
filter, so the result is empty with average price 0 and count 0. -/
theorem apply_filters_sub_inverted_bounds (df : List Listing) (mp Mp : ℚ)
    (ns : Option (List String)) (rt : Option String) (ma Ma mr : Int)
    (st : Option String) (h : Mp < mp ∨ Ma < ma) :
    apply_filters df mp Mp ns rt ma Ma mr st = ([], 0, 0) := by
  rw [apply_filters_eq]
  have hnil : df.filter (passes mp Mp ns rt ma Ma mr st) = [] := by
    rw [List.filter_eq_nil_iff]
    intro a _ hp
    obtain ⟨h1, h2, h3, h4, -⟩ := passes_iff.mp hp
    rcases h with hlt | hlt
    · exact absurd (le_trans h1 h2) (not_le.mpr hlt)
    · exact absurd (le_trans h3 h4) (not_le.mpr hlt)
  simp [hnil]

/-- Claim C8: apply_filters is order-preserving: its result is a sublist of
the input dataset, so surviving rows keep their relative order. -/
theorem apply_filters_order_preserving (df : List Listing) (mp Mp : ℚ)
    (ns : Option (List String)) (rt : Option String) (ma Ma mr : Int)
    (st : Option String) :
    ((apply_filters df mp Mp ns rt ma Ma mr st).1).Sublist df := by
  rw [apply_filters_fst]
  exact List.filter_sublist df

/-- Claim C10: apply_filters is idempotent: running it again on its own
filtered subset with the same criteria returns that subset unchanged,
with the same average price and the same count. -/
theorem apply_filters_idempotent (df : List Listing) (mp Mp : ℚ)
    (ns : Option (List String)) (rt : Option String) (ma Ma mr : Int)
    (st : Option String) :
    apply_filters ((apply_filters df mp Mp ns rt ma Ma mr st).1)
        mp Mp ns rt ma Ma mr st =
      apply_filters df mp Mp ns rt ma Ma mr st := by
  have hfix : (df.filter (passes mp Mp ns rt ma Ma mr st)).filter
      (passes mp Mp ns rt ma Ma mr st) =
      df.filter (passes mp Mp ns rt ma Ma mr st) := by
    simp [List.filter_filter]
  rw [apply_filters_fst, apply_filters_eq, hfix, ← apply_filters_eq]

/-- A variant of the example dataset with one extra row whose name is null. -/
def exampleDSNull : List Listing :=
  exampleDS ++ [⟨none, "Fenway", "Entire home/apt", 80, 100, 5,
    mkRat 4234 100, mkRat (-7109) 100⟩]

theorem lowerStr_beq_empty {s t : String} (h : lowerStr s = lowerStr t) :
    (s == "") = (t == "") := by
  cases s with | mk d1 =>
  cases t with | mk d2 =>
  simp only [lowerStr] at h
  cases d1 <;> cases d2 <;> simp_all [String.ext_iff]

/-- Case-insensitivity of the literal-pattern engine: two search strings
with the same letters up to letter case produce identical filtered rows,
identical average price and identical count. -/
theorem apply_filters_sub_case_insensitive (df : List Listing) (mp Mp : ℚ)
    (ns : Option (List String)) (rt : Option String) (ma Ma mr : Int)
    (s t : String) (h : lowerStr s = lowerStr t) :
    apply_filters df mp Mp ns rt ma Ma mr (some s) =
      apply_filters df mp Mp ns rt ma Ma mr (some t) := by
  have hpass : passes mp Mp ns rt ma Ma mr (some s) =
      passes mp Mp ns rt ma Ma mr (some t) := by
    funext r
    have hemp := lowerStr_beq_empty h
    simp only [passes, searchPass, strTruthy, Option.getD_some]
    rw [hemp]
    cases hname : r.name <;> simp [nameMatches, h]
  rw [apply_filters_eq, hpass, ← apply_filters_eq]

/-- Minimum of the price column of a dataset (0 for an empty dataset,
matching the convention that the value is only used on non-empty data). -/
def dsMinPrice : List Listing → ℚ
  | [] => 0
  | r :: rest => if rest = [] then r.price else min r.price (dsMinPrice rest)

/-- Maximum of the price column of a dataset (0 for an empty dataset). -/
def dsMaxPrice : List Listing → ℚ
  | [] => 0
  | r :: rest => if rest = [] then r.price else max r.price (dsMaxPrice rest)

theorem dsMinPrice_le {df : List Listing} {r : Listing} (h : r ∈ df) :
    dsMinPrice df ≤ r.price := by
  induction df with
  | nil => cases h
  | cons a tl ih =>
    by_cases htl : tl = []
    · subst htl
      rcases List.mem_singleton.mp h with rfl
      simp [dsMinPrice]
    · rcases List.mem_cons.mp h with rfl | hmem
      · simp [dsMinPrice, htl, min_le_left]
      · calc dsMinPrice (a :: tl) ≤ dsMinPrice tl := by
              simp [dsMinPrice, htl, min_le_right]
          _ ≤ r.price := ih hmem

theorem le_dsMaxPrice {df : List Listing} {r : Listing} (h : r ∈ df) :
    r.price ≤ dsMaxPrice df := by
  induction df with
  | nil => cases h
  | cons a tl ih =>
    by_cases htl : tl = []
    · subst htl
      rcases List.mem_singleton.mp h with rfl
      simp [dsMaxPrice]
    · rcases List.mem_cons.mp h with rfl | hmem
      · simp [dsMaxPrice, htl, le_max_left]
      · calc r.price ≤ dsMaxPrice tl := ih hmem
          _ ≤ dsMaxPrice (a :: tl) := by
              simp [dsMaxPrice, htl, le_max_right]

/-- Claim C2: with every constraint at its widest (price bounds set to the
dataset minimum and maximum, availability 0 to 365, zero minimum reviews,
no neighborhood, room-type or text restriction) apply_filters returns the
whole dataset unchanged, with average price the mean price of the full
dataset and count its number of rows.  The availability and review-count
hypotheses are the documented domains of those columns. -/
theorem apply_filters_widest (df : List Listing) (hne : df ≠ [])
    (hval : ∀ r ∈ df, 0 ≤ r.availability_365 ∧ r.availability_365 ≤ 365 ∧
      0 ≤ r.number_of_reviews) :
    apply_filters df (dsMinPrice df) (dsMaxPrice df) none none 0 365 0 none =
      (df, meanPrice df, df.length) := by
  rw [apply_filters_eq]
  have hfil : df.filter
      (passes (dsMinPrice df) (dsMaxPrice df) none none 0 365 0 none) = df := by
    rw [List.filter_eq_self]
    intro a ha
    obtain ⟨h1, h2, h3⟩ := hval a ha
    exact passes_iff.mpr ⟨dsMinPrice_le ha, le_dsMaxPrice ha, h1, h2, h3,
      by simp [listTruthy], by simp [strTruthy], by simp [strTruthy]⟩
  rw [hfil]
  simp [List.isEmpty_iff, hne]

theorem apply_filters_widest_witness :
    apply_filters exampleDS (dsMinPrice exampleDS) (dsMaxPrice exampleDS)
        none none 0 365 0 none =
      (exampleDS, meanPrice exampleDS, exampleDS.length) :=
  apply_filters_widest exampleDS (by decide) (by decide)

/-- Lexicographic comparison of character lists by code point, the order in
which pandas groupby sorts its string keys. -/
def charListLt : List Char → List Char → Bool
  | [], [] => false
  | [], _ :: _ => true
  | _ :: _, [] => false
  | a :: as, b :: bs =>
    decide (a.toNat < b.toNat) || (a == b && charListLt as bs)

/-- Strict lexicographic order on strings. -/
def strLtB (s t : String) : Bool := charListLt s.data t.data

/-- Insertion into a lexicographically sorted list of strings. -/
def insertSorted (s : String) : List String → List String
  | [] => [s]
  | t :: ts => if strLtB s t then s :: t :: ts else t :: insertSorted s ts

/-- Insertion sort of a list of strings, modelling the sorted key order of
pandas groupby. -/
def sortStrings : List String → List String
  | [] => []
  | s :: ss => insertSorted s (sortStrings ss)

/-- The per-neighborhood mean price aggregation,
groupby("neighbourhood")["price"].mean(): one pair per distinct
neighborhood, in sorted key order, carrying the mean price of the rows of
that neighborhood. -/
def neighborhoodMeans (df : List Listing) : List (String × ℚ) :=
  (sortStrings (df.map Listing.neighbourhood).dedup).map
    (fun n => (n, meanPrice (df.filter (fun r => r.neighbourhood == n))))

/-- Scan for the key of the maximum value, keeping the earlier key on ties,
as idxmax does. -/
def idxmaxAux : String × ℚ → List (String × ℚ) → String
  | best, [] => best.1
  | best, (k, v) :: rest =>
    if best.2 < v then idxmaxAux (k, v) rest else idxmaxAux best rest

/-- Key of the maximum value of a key-value list, none when it is empty. -/
def idxmaxPairs : List (String × ℚ) → Option String
  | [] => none
  | p :: rest => some (idxmaxAux p rest)

/-- Scan for the key of the minimum value, keeping the earlier key on ties,
as idxmin does. -/
def idxminAux : String × ℚ → List (String × ℚ) → String
  | best, [] => best.1
  | best, (k, v) :: rest =>
    if v < best.2 then idxminAux (k, v) rest else idxminAux best rest

/-- Key of the minimum value of a key-value list, none when it is empty. -/
def idxminPairs : List (String × ℚ) → Option String
  | [] => none
  | p :: rest => some (idxminAux p rest)

/-- The most expensive neighborhood of the dashboard: the key of the
maximum per-neighborhood mean price (idxmax of the groupby mean). -/
def priciest_neighborhood (df : List Listing) : Option String :=
  idxmaxPairs (neighborhoodMeans df)

/-- The most affordable neighborhood of the dashboard: the key of the
minimum per-neighborhood mean price (idxmin of the groupby mean). -/
def cheapest_neighborhood (df : List Listing) : Option String :=
  idxminPairs (neighborhoodMeans df)

theorem idxmaxAux_spec (l : List (String × ℚ)) : ∀ best : String × ℚ,
    ∃ m : ℚ, (idxmaxAux best l = best.1 ∧ m = best.2 ∨ (idxmaxAux best l, m) ∈ l) ∧
      best.2 ≤ m ∧ ∀ p ∈ l, p.2 ≤ m := by
  induction l with
  | nil =>
    intro best
    exact ⟨best.2, Or.inl ⟨rfl, rfl⟩, le_refl _, by simp⟩
  | cons hd tl ih =>
    intro best
    obtain ⟨k, v⟩ := hd
    by_cases hv : best.2 < v
    · obtain ⟨m, hm, hle, hall⟩ := ih (k, v)
      have hres : idxmaxAux best ((k, v) :: tl) = idxmaxAux (k, v) tl := by
        simp [idxmaxAux, hv]
      refine ⟨m, ?_, le_of_lt (lt_of_lt_of_le hv hle), ?_⟩
      · right
        rw [hres]
        rcases hm with ⟨h1, h2⟩ | hmem
        · rw [h1, h2]
          exact List.mem_cons_self _ _
        · exact List.mem_cons_of_mem _ hmem
      · intro p hp
        rcases List.mem_cons.mp hp with rfl | hmem
        · exact hle
        · exact hall p hmem
    · obtain ⟨m, hm, hle, hall⟩ := ih best
      have hres : idxmaxAux best ((k, v) :: tl) = idxmaxAux best tl := by
        simp [idxmaxAux, hv]
      refine ⟨m, ?_, hle, ?_⟩
      · rw [hres]
        rcases hm with hl | hmem
        · exact Or.inl hl
        · exact Or.inr (List.mem_cons_of_mem _ hmem)
      · intro p hp
        rcases List.mem_cons.mp hp with rfl | hmem
        · exact le_trans (le_of_not_lt hv) hle
        · exact hall p hmem

theorem idxminAux_spec (l : List (String × ℚ)) : ∀ best : String × ℚ,
    ∃ m : ℚ, (idxminAux best l = best.1 ∧ m = best.2 ∨ (idxminAux best l, m) ∈ l) ∧
      m ≤ best.2 ∧ ∀ p ∈ l, m ≤ p.2 := by
  induction l with
  | nil =>
    intro best
    exact ⟨best.2, Or.inl ⟨rfl, rfl⟩, le_refl _, by simp⟩
  | cons hd tl ih =>
    intro best
    obtain ⟨k, v⟩ := hd
    by_cases hv : v < best.2
    · obtain ⟨m, hm, hle, hall⟩ := ih (k, v)
      have hres : idxminAux best ((k, v) :: tl) = idxminAux (k, v) tl := by
        simp [idxminAux, hv]
      refine ⟨m, ?_, le_of_lt (lt_of_le_of_lt hle hv), ?_⟩
      · right
        rw [hres]
        rcases hm with ⟨h1, h2⟩ | hmem
        · rw [h1, h2]
          exact List.mem_cons_self _ _
        · exact List.mem_cons_of_mem _ hmem
      · intro p hp
        rcases List.mem_cons.mp hp with rfl | hmem
        · exact hle
        · exact hall p hmem
    · obtain ⟨m, hm, hle, hall⟩ := ih best
      have hres : idxminAux best ((k, v) :: tl) = idxminAux best tl := by
        simp [idxminAux, hv]
      refine ⟨m, ?_, hle, ?_⟩
      · rw [hres]
        rcases hm with hl | hmem
        · exact Or.inl hl
        · exact Or.inr (List.mem_cons_of_mem _ hmem)
      · intro p hp
        rcases List.mem_cons.mp hp with rfl | hmem
        · exact le_trans hle (le_of_not_lt hv)
        · exact hall p hmem

/-- Claim C6: the per-neighborhood aggregation assigns every neighborhood
the mean price over exactly the listings of that neighborhood; the
neighborhood reported as most expensive carries the maximum of these means
and the one reported as most affordable the minimum; and on the two-row
example dataset the means are 40 for Allston and 120 for Back Bay, with
Back Bay reported as most expensive and Allston as most affordable. -/
theorem neighborhood_aggregation_correct :
    (∀ (df : List Listing) (n : String) (m : ℚ),
        (n, m) ∈ neighborhoodMeans df →
        m = meanPrice (df.filter (fun r => r.neighbourhood == n))) ∧
    (∀ (df : List Listing) (k : String),
        priciest_neighborhood df = some k →
        ∃ m : ℚ, (k, m) ∈ neighborhoodMeans df ∧
          ∀ p ∈ neighborhoodMeans df, p.2 ≤ m) ∧
    (∀ (df : List Listing) (k : String),
        cheapest_neighborhood df = some k →
        ∃ m : ℚ, (k, m) ∈ neighborhoodMeans df ∧
          ∀ p ∈ neighborhoodMeans df, m ≤ p.2) ∧
    neighborhoodMeans exampleDS = [("Allston", 40), ("Back Bay", 120)] ∧
    priciest_neighborhood exampleDS = some "Back Bay" ∧
    cheapest_neighborhood exampleDS = some "Allston" := by
  have hmean : ∀ (df : List Listing) (n : String) (m : ℚ),
      (n, m) ∈ neighborhoodMeans df →
      m = meanPrice (df.filter (fun r => r.neighbourhood == n)) := by
    intro df n m hmem
    simp only [neighborhoodMeans, List.mem_map] at hmem
    obtain ⟨n2, -, heq⟩ := hmem
    injection heq with h1 h2
    subst h1
    exact h2.symm
  have hmax : ∀ (df : List Listing) (k : String),
      priciest_neighborhood df = some k →
      ∃ m : ℚ, (k, m) ∈ neighborhoodMeans df ∧
        ∀ p ∈ neighborhoodMeans df, p.2 ≤ m := by
    intro df k h
    unfold priciest_neighborhood at h
    cases hm : neighborhoodMeans df with
    | nil => rw [hm] at h; simp [idxmaxPairs] at h
    | cons p0 rest =>
      rw [hm] at h
      simp only [idxmaxPairs, Option.some.injEq] at h
      obtain ⟨m, hmem, hle, hall⟩ := idxmaxAux_spec rest p0
      refine ⟨m, ?_, ?_⟩
      · rw [← h]
        rcases hmem with ⟨h1, h2⟩ | hmem2
        · rw [h1, h2]
          exact List.mem_cons_self _ _
        · exact List.mem_cons_of_mem _ hmem2
      · intro p hp
        rcases List.mem_cons.mp hp with rfl | hmem2
        · exact hle
        · exact hall p hmem2
  have hmin : ∀ (df : List Listing) (k : String),
      cheapest_neighborhood df = some k →
      ∃ m : ℚ, (k, m) ∈ neighborhoodMeans df ∧
        ∀ p ∈ neighborhoodMeans df, m ≤ p.2 := by
    intro df k h
    unfold cheapest_neighborhood at h
    cases hm : neighborhoodMeans df with
    | nil => rw [hm] at h; simp [idxminPairs] at h
    | cons p0 rest =>
      rw [hm] at h
      simp only [idxminPairs, Option.some.injEq] at h
      obtain ⟨m, hmem, hle, hall⟩ := idxminAux_spec rest p0
      refine ⟨m, ?_, ?_⟩
      · rw [← h]
        rcases hmem with ⟨h1, h2⟩ | hmem2
        · rw [h1, h2]
          exact List.mem_cons_self _ _
        · exact List.mem_cons_of_mem _ hmem2
      · intro p hp
        rcases List.mem_cons.mp hp with rfl | hmem2
        · exact hle
        · exact hall p hmem2
  have hkeys : sortStrings (exampleDS.map Listing.neighbourhood).dedup =
      ["Allston", "Back Bay"] := by decide
  have hfA : exampleDS.filter (fun r => r.neighbourhood == "Allston") =
      [⟨some "Shared Room", "Allston", "Private room", 40, 300, 2,
        mkRat 4234 100, mkRat (-7113) 100⟩] := by decide
  have hfB : exampleDS.filter (fun r => r.neighbourhood == "Back Bay") =
      [⟨some "Cozy Loft", "Back Bay", "Entire home/apt", 120, 200, 10,
        mkRat 4235 100, mkRat (-7108) 100⟩] := by decide
  have hmeans : neighborhoodMeans exampleDS =
      [("Allston", 40), ("Back Bay", 120)] := by
    unfold neighborhoodMeans
    rw [hkeys]
    simp [hfA, hfB, meanPrice]
  refine ⟨hmean, hmax, hmin, hmeans, ?_, ?_⟩
  · unfold priciest_neighborhood
    rw [hmeans]
    simp only [idxmaxPairs, Option.some.injEq]
    norm_num [idxmaxAux]
  · unfold cheapest_neighborhood
    rw [hmeans]
    simp only [idxminPairs, Option.some.injEq]
    norm_num [idxminAux]

theorem neighborhood_aggregation_correct_witness :
    ∃ m : ℚ, ("Back Bay", m) ∈ neighborhoodMeans exampleDS ∧
      ∀ p ∈ neighborhoodMeans exampleDS, p.2 ≤ m :=
  neighborhood_aggregation_correct.2.1 exampleDS "Back Bay"
    neighborhood_aggregation_correct.2.2.2.2.1

deriving instance DecidableEq for Except

/-- Outcome of compiling a search pattern that is not accepted: either the
Python code raises re.error, or the pattern uses regex syntax outside the
modelled fragment. -/
inductive RErr where
  | reError
  | unmodelled
deriving DecidableEq, Repr

/-- One matching unit of the modelled regex fragment: a literal character
(matched with IGNORECASE), the dot wildcard (any character except a
newline), the backslash-d digit class or the backslash-D non-digit class
(IGNORECASE does not affect the classes). -/
inductive RAtom where
  | lit : Char → RAtom
  | dot : RAtom
  | digit : RAtom
  | nondigit : RAtom
deriving DecidableEq, Repr

/-- Regex metacharacters whose interpretation (quantifiers, classes,
alternation, anchors) is outside the modelled fragment. -/
def isMetaChar (c : Char) : Bool :=
  c == '*' || c == '+' || c == '?' || c == '[' || c == ']' ||
  c == '\x7b' || c == '\x7d' || c == '|' || c == '^' || c == '$'

/-- A character that a Python regex matches literally as itself: anything
that is neither a backslash, a parenthesis, a dot nor a metacharacter. -/
def isLiteralChar (c : Char) : Bool :=
  !(c == '\\' || c == '(' || c == ')' || c == '.' || isMetaChar c)

/-- A search string every character of which is literal: on such patterns
regex matching is plain substring matching. -/
def isLiteralPat (p : String) : Bool := p.data.all isLiteralChar

/-- Parser for the modelled fragment of Python regex syntax, tracking the
open-parenthesis depth.  Groups carry no quantifiers in the fragment, so
they are flattened to their contents.  Faithful to re.compile on the
fragment: an unbalanced closing parenthesis, an unterminated group and a
trailing backslash raise re.error; the backslash-d and backslash-D classes
and escaped punctuation are accepted; quantifiers, character classes,
alternation, anchors and the remaining alphanumeric escapes are outside
the fragment and map to unmodelled. -/
def parseAux : List Char → Nat → Except RErr (List RAtom)
  | [], d => if d == 0 then .ok [] else .error .reError
  | c :: rest, d =>
    if c == '(' then parseAux rest (d + 1)
    else if c == ')' then
      match d with
      | 0 => .error .reError
      | d2 + 1 => parseAux rest d2
    else if c == '\\' then
      match rest with
      | [] => .error .reError
      | e :: rest2 =>
        if e == 'd' then (parseAux rest2 d).map (fun l => .digit :: l)
        else if e == 'D' then (parseAux rest2 d).map (fun l => .nondigit :: l)
        else if e.isAlphanum then .error .unmodelled
        else (parseAux rest2 d).map (fun l => .lit e :: l)
    else if c == '.' then (parseAux rest d).map (fun l => .dot :: l)
    else if isMetaChar c then .error .unmodelled
    else (parseAux rest d).map (fun l => .lit c :: l)

/-- Compilation of a search pattern, modelling re.compile on the fragment. -/
def reCompile (p : String) : Except RErr (List RAtom) := parseAux p.data 0

/-- Whether one atom matches one character, with IGNORECASE semantics for
literals (ASCII case folding). -/
def atomMatches : RAtom → Char → Bool
  | .lit c, x => c.toLower == x.toLower
  | .dot, x => !(x == '\n')
  | .digit, x => x.isDigit
  | .nondigit, x => !x.isDigit

/-- Whether the text starts with a match of the atom sequence. -/
def atomsStartWith : List RAtom → List Char → Bool
  | [], _ => true
  | _ :: _, [] => false
  | a :: as, c :: cs => atomMatches a c && atomsStartWith as cs

/-- Whether the atom sequence matches somewhere in the text, modelling
re.search. -/
def atomsSearch : List RAtom → List Char → Bool
  | pat, [] => pat.isEmpty
  | pat, c :: cs => atomsStartWith pat (c :: cs) || atomsSearch pat cs

/-- Regex match of the compiled search pattern against an optional name
field: a null name never matches (na=False). -/
def reNameMatches (pat : List RAtom) (name : Option String) : Bool :=
  match name with
  | none => false
  | some n => atomsSearch pat n.data

/-- The filter engine with the text-search branch modelled faithfully:
identical to apply_filters up to the search step, which compiles the
search text as a regular expression, as pandas str.contains does with its
regex=True default.  Compilation happens before the data is consulted, so
an invalid pattern yields the error outcome even when the frame reaching
the search step is already empty, exactly as re.compile raises inside
str.contains in the Python code. -/
def apply_filters_regex (df : List Listing) (min_price max_price : ℚ)
    (neighborhoods : Option (List String)) ( room_type : Option String)
    (min_avail max_avail : Int) (min_reviews : Int)
    (search_text : Option String) : Except RErr (List Listing × ℚ × Nat) :=
  let f0 := df.filter (fun r =>
    decide (min_price ≤ r.price) && decide (r.price ≤ max_price) &&
    decide (min_avail ≤ r.availability_365) && decide (r.availability_365 ≤ max_avail) &&
    decide (min_reviews ≤ r.number_of_reviews))
  let f1 := if listTruthy neighborhoods then
      f0.filter (fun r => (neighborhoods.getD []).contains r.neighbourhood)
    else f0
  let f2 := if strTruthy room_type then
      f1.filter (fun r => r.room_type == room_type.getD "")
    else f1
  if strTruthy search_text then
    match reCompile (search_text.getD "") with
    | .error e => .error e
    | .ok pat =>
      let f3 := f2.filter (fun r => reNameMatches pat r.name)
      .ok (f3, if f3.isEmpty then 0 else meanPrice f3, f3.length)
  else
    .ok (f2, if f2.isEmpty then 0 else meanPrice f2, f2.length)

/-- The rows of a regex-engine outcome, none when it is an error. -/
def regexRows (e : Except RErr (List Listing × ℚ × Nat)) :
    Option (List Listing) :=
  match e with
  | .ok t => some t.1
  | .error _ => none

/-- A one-row dataset whose listing name consists of digits, separating the
digit class from the non-digit class. -/
def digitNameDS : List Listing :=
  [⟨some "123", "Back Bay", "Entire home/apt", 100, 100, 1,
    mkRat 4235 100, mkRat (-7108) 100⟩]

theorem apply_filters_regex_inactive (df : List Listing) (mp Mp : ℚ)
    (ns : Option (List String)) (rt : Option String) (ma Ma mr : Int)
    (st : Option String) (hst : strTruthy st = false) :
    apply_filters_regex df mp Mp ns rt ma Ma mr st =
      .ok (apply_filters df mp Mp ns rt ma Ma mr st) := by
  simp [apply_filters_regex, apply_filters, hst]

theorem apply_filters_regex_error (df : List Listing) (mp Mp : ℚ)
    (ns : Option (List String)) (rt : Option String) (ma Ma mr : Int)
    (st : Option String) (e : RErr) (hst : strTruthy st = true)
    (hc : reCompile (st.getD "") = .error e) :
    apply_filters_regex df mp Mp ns rt ma Ma mr st = .error e := by
  simp [apply_filters_regex, hst, hc]

theorem apply_filters_regex_ok_pat (df : List Listing) (mp Mp : ℚ)
    (ns : Option (List String)) (rt : Option String) (ma Ma mr : Int)
    (st : Option String) (pat : List RAtom) (hst : strTruthy st = true)
    (hc : reCompile (st.getD "") = .ok pat) :
    apply_filters_regex df mp Mp ns rt ma Ma mr st =
      .ok ((apply_filters df mp Mp ns rt ma Ma mr none).1.filter
             (fun r => reNameMatches pat r.name),
           if ((apply_filters df mp Mp ns rt ma Ma mr none).1.filter
                 (fun r => reNameMatches pat r.name)).isEmpty then 0
           else meanPrice ((apply_filters df mp Mp ns rt ma Ma mr none).1.filter
                 (fun r => reNameMatches pat r.name)),
           ((apply_filters df mp Mp ns rt ma Ma mr none).1.filter
             (fun r => reNameMatches pat r.name)).length) := by
  have hn : strTruthy none = false := rfl
  simp [apply_filters_regex, apply_filters, hst, hc, hn]

theorem char_beq_comm (a b : Char) : (a == b) = (b == a) := by
  by_cases h : a = b
  · subst h; rfl
  · simp [beq_eq_false_iff_ne, h, Ne.symm h]

theorem atomsStartWith_lit (s : List Char) : ∀ h : List Char,
    atomsStartWith (s.map RAtom.lit) h =
      charsStartWith (h.map Char.toLower) (s.map Char.toLower) := by
  induction s with
  | nil =>
    intro h
    cases h <;> simp [atomsStartWith, charsStartWith]
  | cons a as ih =>
    intro h
    cases h with
    | nil => simp [atomsStartWith, charsStartWith]
    | cons c cs =>
      simp only [List.map_cons, atomsStartWith, charsStartWith, atomMatches,
        ih cs]
      rw [char_beq_comm]

theorem atomsSearch_lit (s : String) : ∀ h : List Char,
    atomsSearch (s.data.map RAtom.lit) h =
      charsContain (h.map Char.toLower) (lowerStr s) := by
  intro h
  induction h with
  | nil =>
    simp only [atomsSearch, charsContain, lowerStr, List.map_nil]
    cases hd : s.data <;> simp [hd]
  | cons c cs ih =>
    simp only [atomsSearch, List.map_cons, charsContain, ih]
    rw [atomsStartWith_lit s.data (c :: cs)]
    simp [lowerStr]

theorem reNameMatches_lit (s : String) (nm : Option String) :
    reNameMatches (s.data.map RAtom.lit) nm = nameMatches s nm := by
  cases nm with
  | none => rfl
  | some n =>
    simp only [reNameMatches, nameMatches, lowerStr]
    rw [atomsSearch_lit]
    rfl

theorem parseAux_literal : ∀ l : List Char, l.all isLiteralChar = true →
    parseAux l 0 = .ok (l.map RAtom.lit) := by
  intro l
  induction l with
  | nil => intro _; rfl
  | cons c rest ih =>
    intro h
    rw [List.all_cons, Bool.and_eq_true] at h
    obtain ⟨hc, hrest⟩ := h
    have hc2 : (c == '\\' || c == '(' || c == ')' || c == '.' ||
        isMetaChar c) = false := by
      cases hb : (c == '\\' || c == '(' || c == ')' || c == '.' ||
          isMetaChar c) with
      | false => rfl
      | true => rw [isLiteralChar, hb] at hc; simp at hc
    rw [Bool.or_eq_false_iff, Bool.or_eq_false_iff, Bool.or_eq_false_iff,
      Bool.or_eq_false_iff] at hc2
    obtain ⟨⟨⟨⟨e1, e2⟩, e3⟩, e4⟩, e5⟩ := hc2
    rw [parseAux.eq_def]
    simp [e1, e2, e3, e4, e5, ih hrest, Except.map]

theorem reCompile_literal {p : String} (h : isLiteralPat p = true) :
    reCompile p = .ok (p.data.map RAtom.lit) :=
  parseAux_literal p.data h

/-- On search texts free of regex metacharacters the faithful engine and
the literal-pattern engine agree: the pattern compiles and regex matching
coincides with case-insensitive substring containment. -/
theorem apply_filters_regex_eq_literal (df : List Listing) (mp Mp : ℚ)
    (ns : Option (List String)) (rt : Option String) (ma Ma mr : Int)
    (st : Option String)
    (hlit : ∀ s, st = some s → strTruthy st = true → isLiteralPat s = true) :
    apply_filters_regex df mp Mp ns rt ma Ma mr st =
      .ok (apply_filters df mp Mp ns rt ma Ma mr st) := by
  by_cases hst : strTruthy st = true
  · obtain ⟨s, rfl⟩ : ∃ s, st = some s := by
      cases st with
      | none => simp [strTruthy] at hst
      | some s => exact ⟨s, rfl⟩
    have hl := hlit s rfl hst
    have hc : reCompile ((some s).getD "") = .ok (s.data.map RAtom.lit) :=
      reCompile_literal hl
    rw [apply_filters_regex_ok_pat df mp Mp ns rt ma Ma mr (some s)
      (s.data.map RAtom.lit) hst hc]
    have hfun : (fun r : Listing => reNameMatches (s.data.map RAtom.lit) r.name) =
        (fun r : Listing => nameMatches s r.name) := by
      funext r
      exact reNameMatches_lit s r.name
    rw [hfun]
    have hfil : (apply_filters df mp Mp ns rt ma Ma mr none).1.filter
        (fun r => nameMatches s r.name) =
        (apply_filters df mp Mp ns rt ma Ma mr (some s)).1 := by
      rw [apply_filters_fst, apply_filters_fst, List.filter_filter]
      refine List.filter_congr (fun a _ => ?_)
      have hn : strTruthy none = false := rfl
      simp [passes, searchPass, hst, hn, Bool.and_assoc, Bool.and_comm,
        Bool.and_left_comm]
    rw [hfil, apply_filters_fst df mp Mp ns rt ma Ma mr (some s),
      ← apply_filters_eq]
  · rw [Bool.not_eq_true] at hst
    exact apply_filters_regex_inactive df mp Mp ns rt ma Ma mr st hst

/-- Claim C1 (as amended): when the search text, if given, is free of regex
metacharacters, every row returned by the faithful filter engine is a row
of the input dataset and satisfies every active constraint simultaneously:
the inclusive price bounds, the inclusive availability bounds, the review
lower bound, membership of the neighborhood set when that set is active,
exact room-type equality when a room type is active, and case-insensitive
containment of the search text in the name; the constraints combine by
logical AND.  For other search texts pandas interprets the text as a
regular expression, not as contained text. -/
theorem apply_filters_regex_sound (df : List Listing) (mp Mp : ℚ)
    (ns : Option (List String)) (rt : Option String) (ma Ma mr : Int)
    (st : Option String) (res : List Listing × ℚ × Nat) (r : Listing)
    (hlit : ∀ s, st = some s → strTruthy st = true → isLiteralPat s = true)
    (hres : apply_filters_regex df mp Mp ns rt ma Ma mr st = .ok res)
    (hr : r ∈ res.1) :
    r ∈ df ∧ mp ≤ r.price ∧ r.price ≤ Mp ∧ ma ≤ r.availability_365 ∧
      r.availability_365 ≤ Ma ∧ mr ≤ r.number_of_reviews ∧
      (listTruthy ns = true → r.neighbourhood ∈ ns.getD []) ∧
      (strTruthy rt = true → r.room_type = rt.getD "") ∧
      (strTruthy st = true → nameMatches (st.getD "") r.name = true) := by
  rw [apply_filters_regex_eq_literal df mp Mp ns rt ma Ma mr st hlit] at hres
  injection hres with h
  subst h
  exact apply_filters_sub_sound df mp Mp ns rt ma Ma mr st r hr

/-- Claim C1 counterexample: with the search text a lone dot the faithful
engine keeps every row of the example dataset, although no listing name
contains a literal dot: the dot is the regex wildcard, so a returned row
need not contain the search text. -/
theorem apply_filters_regex_sound_cex :
    regexRows (apply_filters_regex exampleDS 0 1000 none none 0 365 0
      (some ".")) = some exampleDS ∧
    nameMatches "." (some "Cozy Loft") = false ∧
    nameMatches "." (some "Shared Room") = false :=
  ⟨by decide, by decide, by decide⟩

theorem apply_filters_regex_sound_witness :
    (⟨some "Cozy Loft", "Back Bay", "Entire home/apt", 120, 200, 10,
      mkRat 4235 100, mkRat (-7108) 100⟩ : Listing) ∈ exampleDS :=
  (apply_filters_regex_sound exampleDS 50 200 none none 0 365 0 (some "loft")
    (apply_filters exampleDS 50 200 none none 0 365 0 (some "loft"))
    ⟨some "Cozy Loft", "Back Bay", "Entire home/apt", 120, 200, 10,
      mkRat 4235 100, mkRat (-7108) 100⟩
    (fun _ hu _ => by cases hu; decide)
    (apply_filters_regex_eq_literal exampleDS 50 200 none none 0 365 0
      (some "loft") (fun _ hu _ => by cases hu; decide))
    (by decide)).1

/-- Claim C3 (as amended): when the faithful engine returns at all, an
empty filtered subset comes with average price exactly 0 and count exactly
0, so criteria matching zero rows are valid inputs whenever the search
text is absent or compiles; an invalid regex pattern instead raises
re.error even though no rows match. -/
theorem apply_filters_regex_empty_result (df : List Listing) (mp Mp : ℚ)
    (ns : Option (List String)) (rt : Option String) (ma Ma mr : Int)
    (st : Option String) (t : List Listing × ℚ × Nat)
    (hok : apply_filters_regex df mp Mp ns rt ma Ma mr st = .ok t)
    (hempty : t.1 = []) : t.2.1 = 0 ∧ t.2.2 = 0 := by
  by_cases hst : strTruthy st = true
  · cases hc : reCompile (st.getD "") with
    | error e =>
      rw [apply_filters_regex_error df mp Mp ns rt ma Ma mr st e hst hc]
        at hok
      simp at hok
    | ok pat =>
      rw [apply_filters_regex_ok_pat df mp Mp ns rt ma Ma mr st pat hst hc]
        at hok
      injection hok with h
      subst h
      simp only [] at hempty
      simp [hempty]
  · rw [Bool.not_eq_true] at hst
    rw [apply_filters_regex_inactive df mp Mp ns rt ma Ma mr st hst] at hok
    injection hok with h
    subst h
    exact apply_filters_sub_empty_result df mp Mp ns rt ma Ma mr st hempty

/-- Claim C3 counterexample: price bounds 1000 to 2000 match zero rows of
the example dataset and duly give the empty result when no search text is
given, but the same zero-match criteria with search text an opening
parenthesis raise re.error instead of returning the empty result: the
pattern is compiled before the empty frame is consulted. -/
theorem apply_filters_regex_empty_result_cex :
    apply_filters_regex exampleDS 1000 2000 none none 0 365 0 none =
      .ok ([], 0, 0) ∧
    apply_filters_regex exampleDS 1000 2000 none none 0 365 0 (some "(") =
      .error .reError :=
  ⟨by decide, by decide⟩

theorem apply_filters_regex_empty_result_witness :
    (([], 0, 0) : List Listing × ℚ × Nat).2.1 = 0 ∧
      (([], 0, 0) : List Listing × ℚ × Nat).2.2 = 0 :=
  apply_filters_regex_empty_result exampleDS 1000 2000 none none 0 365 0
    (some "zzz") ([], 0, 0) (by decide) (by decide)

/-- Claim C4 (as amended): for search strings free of regex
metacharacters, the text search is case-insensitive: two such strings with
the same letters up to letter case produce identical outcomes of the
faithful engine, hence identical rows, average price and count.  For
strings with escapes the claim fails: converting the letter case of an
escape changes its regex meaning. -/
theorem apply_filters_regex_case_insensitive (df : List Listing) (mp Mp : ℚ)
    (ns : Option (List String)) (rt : Option String) (ma Ma mr : Int)
    (s t : String) (hs : isLiteralPat s = true) (ht : isLiteralPat t = true)
    (h : lowerStr s = lowerStr t) :
    apply_filters_regex df mp Mp ns rt ma Ma mr (some s) =
      apply_filters_regex df mp Mp ns rt ma Ma mr (some t) := by
  rw [apply_filters_regex_eq_literal df mp Mp ns rt ma Ma mr (some s)
        (fun _ hu _ => by cases hu; exact hs),
      apply_filters_regex_eq_literal df mp Mp ns rt ma Ma mr (some t)
        (fun _ hu _ => by cases hu; exact ht),
      apply_filters_sub_case_insensitive df mp Mp ns rt ma Ma mr s t h]

/-- Claim C4 counterexample: the backslash-d and backslash-D search texts
agree letter for letter up to letter case, yet on a dataset whose one
listing is named with digits the faithful engine keeps the row for the
digit class and drops it for the non-digit class: IGNORECASE does not make
the two escapes equivalent. -/
theorem apply_filters_regex_case_insensitive_cex :
    lowerStr "\\d" = lowerStr "\\D" ∧
    regexRows (apply_filters_regex digitNameDS 0 1000 none none 0 365 0
      (some "\\d")) = some digitNameDS ∧
    regexRows (apply_filters_regex digitNameDS 0 1000 none none 0 365 0
      (some "\\D")) = some [] :=
  ⟨by decide, by decide, by decide⟩

theorem apply_filters_regex_case_insensitive_witness :
    apply_filters_regex exampleDS 0 1000 none none 0 365 0 (some "loft") =
      apply_filters_regex exampleDS 0 1000 none none 0 365 0 (some "LOFT") :=
  apply_filters_regex_case_insensitive exampleDS 0 1000 none none 0 365 0
    "loft" "LOFT" (by decide) (by decide) (by decide)

/-- Claim C7 (as amended): a criteria set with min_price strictly above
max_price, or min_avail strictly above max_avail, is accepted without
validation and, whenever the search text is absent or compiles, yields the
empty result with average price 0 and count 0 under the AND semantics; an
invalid regex pattern instead raises re.error even though the range
constraints already exclude every row. -/
theorem apply_filters_regex_inverted_bounds (df : List Listing) (mp Mp : ℚ)
    (ns : Option (List String)) (rt : Option String) (ma Ma mr : Int)
    (st : Option String) (h : Mp < mp ∨ Ma < ma)
    (hpat : strTruthy st = true → ∃ pat, reCompile (st.getD "") = .ok pat) :
    apply_filters_regex df mp Mp ns rt ma Ma mr st = .ok ([], 0, 0) := by
  by_cases hst : strTruthy st = true
  · obtain ⟨pat, hc⟩ := hpat hst
    rw [apply_filters_regex_ok_pat df mp Mp ns rt ma Ma mr st pat hst hc]
    have hnil : (apply_filters df mp Mp ns rt ma Ma mr none).1 = [] := by
      rw [apply_filters_sub_inverted_bounds df mp Mp ns rt ma Ma mr none h]
    rw [hnil]
    simp
  · rw [Bool.not_eq_true] at hst
    rw [apply_filters_regex_inactive df mp Mp ns rt ma Ma mr st hst,
      apply_filters_sub_inverted_bounds df mp Mp ns rt ma Ma mr st h]

/-- Claim C7 counterexample: with min_price 200 above max_price 50 and the
opening-parenthesis search text the faithful engine raises re.error rather
than returning the empty result. -/
theorem apply_filters_regex_inverted_bounds_cex :
    apply_filters_regex exampleDS 200 50 none none 0 365 0 (some "(") =
      .error .reError ∧
    apply_filters_regex exampleDS 200 50 none none 0 365 0 (some "(") ≠
      .ok ([], 0, 0) :=
  ⟨by decide, by decide⟩

theorem apply_filters_regex_inverted_bounds_witness :
    apply_filters_regex exampleDS 200 50 none none 0 365 0 (some "loft") =
      .ok ([], 0, 0) :=
  apply_filters_regex_inverted_bounds exampleDS 200 50 none none 0 365 0
    (some "loft") (Or.inl (by norm_num))
    (fun _ => ⟨[RAtom.lit 'l', RAtom.lit 'o', RAtom.lit 'f', RAtom.lit 't'],
      by decide⟩)

/-- Claim C9 (as amended): with a non-empty search text whose pattern
compiles, the faithful engine completes with a result, and rows whose name
field is null are excluded from it: a null name never matches (na=False).
With an invalid pattern the engine instead reports re.error. -/
theorem apply_filters_regex_null_names (df : List Listing) (mp Mp : ℚ)
    (ns : Option (List String)) (rt : Option String) (ma Ma mr : Int)
    (s : String) (pat : List RAtom) (hs : s ≠ "")
    (hc : reCompile s = .ok pat) :
    ∃ t, apply_filters_regex df mp Mp ns rt ma Ma mr (some s) = .ok t ∧
      ∀ r ∈ t.1, r.name ≠ none := by
  have hst : strTruthy (some s) = true := by simp [strTruthy, hs]
  refine ⟨_, apply_filters_regex_ok_pat df mp Mp ns rt ma Ma mr (some s)
    pat hst hc, ?_⟩
  intro r hr
  have hm := (List.mem_filter.mp hr).2
  intro hn
  rw [hn] at hm
  simp [reNameMatches] at hm

/-- Claim C9 counterexample: the opening parenthesis is a non-empty search
text, yet on the dataset with a null-name row the faithful engine raises
re.error instead of completing: re.compile rejects the pattern before any
row is examined. -/
theorem apply_filters_regex_null_names_cex :
    ("(" : String) ≠ "" ∧
    apply_filters_regex exampleDSNull 0 1000 none none 0 365 0 (some "(") =
      .error .reError :=
  ⟨by decide, by decide⟩

theorem apply_filters_regex_null_names_witness :
    ∃ t, apply_filters_regex exampleDSNull 0 1000 none none 0 365 0
        (some "loft") = .ok t ∧ ∀ r ∈ t.1, r.name ≠ none :=
  apply_filters_regex_null_names exampleDSNull 0 1000 none none 0 365 0
    "loft" [RAtom.lit 'l', RAtom.lit 'o', RAtom.lit 'f', RAtom.lit 't']
    (by decide) (by decide)
